import Mathlib

/-!
Verification of the extraction pipeline of `src/price_v2.py`: the
numeric normalizer `normalize_price_to_float`, the price locator
chain and orchestration inside `fetch_amazon_price`, the currency
hint derivation, and the CSV history appender `append_history_csv`.
Python strings are modelled over their character lists, the result
of Python `float` on the cleaned numeric strings is modelled exactly
as a rational, and the Python regex character classes are modelled
over ASCII.
-/

/-- Characters kept by step 1 of the normalizer: the regex
`[^\d\.,]` substitution removes everything that is not a digit, a
dot or a comma. -/
def isPriceChar (c : Char) : Bool := c.isDigit || c == '.' || c == ','

/-- ASCII whitespace as stripped by the Python `str.strip` calls. -/
def isPySpace (c : Char) : Bool :=
  c == ' ' || c == '\t' || c == '\n' || c == '\r' || c == '\x0B' || c == '\x0C'

/-- Python `str.strip` on a character list: drop whitespace at both
ends. -/
def pyStrip (l : List Char) : List Char :=
  ((l.dropWhile isPySpace).reverse.dropWhile isPySpace).reverse

/-- The cleaning step of `normalize_price_to_float`:
`re.sub` with pattern `[^\d\.,]` and empty replacement, as a
character filter. -/
def cleanChars (l : List Char) : List Char := l.filter isPriceChar

/-- Python `str.rfind` on a character list: index of the last
occurrence of the character, or `-1` when it is absent. -/
def rfind (l : List Char) (c : Char) : Int :=
  match l.reverse.findIdx? (· == c) with
  | some i => (l.length : Int) - 1 - (i : Int)
  | none => -1

/-- Python `str.replace` of a comma by a dot, on one character. -/
def commaToDot (c : Char) : Char := if c == ',' then '.' else c

/-- Value of a digit string read in base 10 (empty gives 0, matching
how an absent fractional part contributes nothing). -/
def digitsVal (l : List Char) : ℕ :=
  l.foldl (fun n c => 10 * n + (c.toNat - 48)) 0

/-- Python `float` restricted to the cleaned numeric strings the
normalizer hands it: such a string parses exactly when it consists
of digits and at most one dot and contains at least one digit; a
`ValueError` is `none`. The value is the integer part plus the
fractional digits scaled down, as an exact rational. -/
def floatOfCleaned (l : List Char) : Option ℚ :=
  if (l.all fun c => c.isDigit || c == '.') && decide (l.count '.' ≤ 1)
      && l.any (·.isDigit) then
    some ((digitsVal (l.takeWhile (· != '.')) : ℚ) +
      (digitsVal ((l.dropWhile (· != '.')).drop 1) : ℚ) /
        (10 : ℚ) ^ ((l.dropWhile (· != '.')).drop 1).length)
  else none

/-- `normalize_price_to_float` from `src/price_v2.py`, lines 74 to
109: empty input is `None`; clean and strip; empty remainder is
`None`; disambiguate the separators by last occurrence; parse, with
a parse failure caught as `None`. -/
def normalize_price_to_float (text : String) : Option ℚ :=
  if text = "" then none
  else
    let cleaned := pyStrip (cleanChars text.toList)
    if cleaned = [] then none
    else if cleaned.contains '.' && cleaned.contains ',' then
      if rfind cleaned ',' > rfind cleaned '.' then
        floatOfCleaned ((cleaned.filter (· != '.')).map commaToDot)
      else
        floatOfCleaned (cleaned.filter (· != ','))
    else if cleaned.contains ',' then
      floatOfCleaned ((cleaned.filter (· != '.')).map commaToDot)
    else
      floatOfCleaned cleaned

/-- Spec-side restatement of the separator policy of the spec, step
2 of the normalizer, written from the words of the spec for
comparison with the code: with both separators present, the one
whose last occurrence is farther right is the decimal point and the
other is removed, a comma decimal being rewritten to a dot; with
only a comma present, the comma is rewritten to a dot; with only a
dot present, or neither, the string is left as-is. -/
def specSeparatorRewrite (cleaned : List Char) : List Char :=
  if cleaned.contains '.' && cleaned.contains ',' then
    if rfind cleaned ',' > rfind cleaned '.' then
      (cleaned.filter (· != '.')).map commaToDot
    else
      cleaned.filter (· != ',')
  else if cleaned.contains ',' then
    cleaned.map commaToDot
  else
    cleaned

/-- The price selector chain of `fetch_amazon_price` (its
`candidates` list), in priority order. -/
def priceCandidates : List String :=
  ["#priceblock_ourprice",
   "#priceblock_dealprice",
   "#priceblock_saleprice",
   "span.a-price span.a-offscreen",
   "#corePriceDisplay_desktop_feature_div span.a-price span.a-offscreen",
   "#corePrice_feature_div span.a-price span.a-offscreen"]

/-- A parsed document, abstracted to the capability the code uses:
`select_one` followed by `get_text`, so a selector yields either no
element (`none`) or the whitespace-normalized text of the first
matching element (possibly empty). -/
abbrev Document : Type := String → Option String

/-- The locator loop of `fetch_amazon_price`, lines 163 to 169: the
first selector whose element exists and whose text is non-empty
wins; otherwise the loop falls through to the next selector. -/
def locate (doc : Document) : List String → Option String
  | [] => none
  | sel :: rest =>
    match doc sel with
    | some t => if t = "" then locate doc rest else some t
    | none => locate doc rest

/-- The characters removed by the currency hint derivation: the
`re.sub` pattern `[\d\.,\s]` removes digits, dots, commas and
whitespace. -/
def isHintStrip (c : Char) : Bool := c.isDigit || c == '.' || c == ',' || isPySpace c

/-- The currency hint derivation in `fetch_amazon_price`, line 176:
remove every digit, dot, comma and whitespace character, then strip. -/
def currency_hint (priceText : String) : String :=
  String.mk (pyStrip (priceText.toList.filter (fun c => !isHintStrip c)))

/-- The two failure signals of the extraction: the two distinct
`RuntimeError` raises of `fetch_amazon_price`. -/
inductive FetchError where
  | priceNotFound
  | priceUnparseable
deriving DecidableEq

/-- The result record of `fetch_amazon_price`. -/
structure PriceObservation where
  url : String
  title : String
  price : ℚ
  price_text : String
  currency_hint : String
deriving DecidableEq

/-- The best-effort title lookup of `fetch_amazon_price`, lines 147
to 150: the first of the two title selectors whose element exists
supplies the text, and the title stays empty otherwise. -/
def titleOf (doc : Document) : String :=
  match doc "#productTitle" with
  | some t => t
  | none =>
    match doc "h1#title" with
    | some t => t
    | none => ""

/-- The pure extraction core of `fetch_amazon_price`, lines 146 to
190: best-effort title lookup, then the price locator chain,
normalization and currency hint, assembled into the result record;
the two raises become the two error values. -/
def fetch_amazon_price (doc : Document) (url : String) :
    Except FetchError PriceObservation :=
  match locate doc priceCandidates with
  | none => Except.error FetchError.priceNotFound
  | some price_text =>
    match normalize_price_to_float price_text with
    | none => Except.error FetchError.priceUnparseable
    | some price_val =>
      Except.ok ⟨url, titleOf doc, price_val, price_text, currency_hint price_text⟩

/-- The header row written by `append_history_csv` when it creates
the file. -/
def headerRow : List String := ["timestamp", "url", "title", "price", "raw_price"]

/-- One observation to persist; the timestamp field stands for the
`now_str()` value at the time of the call. -/
structure HistoryEntry where
  timestamp : String
  url : String
  title : String
  price : ℚ
  raw_price : String

/-- The data row `append_history_csv` writes for one entry, fields
in the order of line 71 of the source. -/
def rowOf (e : HistoryEntry) : List String :=
  [e.timestamp, e.url, e.title, toString e.price, e.raw_price]

/-- `append_history_csv`, lines 61 to 71: the CSV file is a list of
rows, `none` meaning the file does not exist yet; opening with mode
`a` appends, and the header row is written only when the file did
not exist. The function returns the file content after the call. -/
def append_history_csv (file : Option (List (List String))) (e : HistoryEntry) :
    List (List String) :=
  match file with
  | none => [headerRow, rowOf e]
  | some rows => rows ++ [rowOf e]

/-- Iterated calls to `append_history_csv` from a given file state. -/
def runHistory : Option (List (List String)) → List HistoryEntry →
    Option (List (List String))
  | file, [] => file
  | file, e :: es => runHistory (some (append_history_csv file e)) es

/-- A test document on which only the third of the six price
selectors yields an element. -/
def docThirdOnly : Document :=
  fun sel => if sel = "#priceblock_saleprice" then some "1.234,56 TL" else none

/-- A test document on which only the fourth price selector yields
an element, with a dollar price and no title element. -/
def docDollarOnly : Document :=
  fun sel => if sel = "span.a-price span.a-offscreen" then some "$49.90" else none

/-- A test document with a comma-decimal price on the first selector
and no title element. -/
def docCommaOnly : Document :=
  fun sel => if sel = "#priceblock_ourprice" then some "49,90" else none

/-- The normalizer is the composition of cleaning, stripping, the
separator policy as worded in the spec, and parsing: the code and
the spec-side policy agree on every input. -/
theorem normalize_eq_spec (s : String) :
    normalize_price_to_float s =
      floatOfCleaned (specSeparatorRewrite (pyStrip (cleanChars s.toList))) := by
  by_cases hs : s = ""
  · subst hs; rfl
  · unfold normalize_price_to_float specSeparatorRewrite
    rw [if_neg hs]
    by_cases hempty : pyStrip (cleanChars s.toList) = []
    · rw [if_pos hempty, hempty]; rfl
    · rw [if_neg hempty]
      by_cases hboth :
          ((pyStrip (cleanChars s.toList)).contains '.' &&
            (pyStrip (cleanChars s.toList)).contains ',') = true
      · rw [if_pos hboth, if_pos hboth]
        by_cases hr :
            rfind (pyStrip (cleanChars s.toList)) ',' >
              rfind (pyStrip (cleanChars s.toList)) '.'
        · rw [if_pos hr, if_pos hr]
        · rw [if_neg hr, if_neg hr]
      · rw [if_neg hboth, if_neg hboth]
        by_cases hcomma : (pyStrip (cleanChars s.toList)).contains ',' = true
        · rw [if_pos hcomma, if_pos hcomma]
          have hdot : (pyStrip (cleanChars s.toList)).contains '.' = false := by
            cases h : (pyStrip (cleanChars s.toList)).contains '.' with
            | false => rfl
            | true => exact absurd (by rw [h, hcomma]; rfl) hboth
          have hnotmem : '.' ∉ pyStrip (cleanChars s.toList) := by
            simpa using hdot
          have hfilter : (pyStrip (cleanChars s.toList)).filter (· != '.') =
              pyStrip (cleanChars s.toList) := by
            refine List.filter_eq_self.mpr fun a ha => ?_
            simp only [bne_iff_ne, ne_eq]
            exact fun heq => hnotmem (heq ▸ ha)
          rw [hfilter]
        · rw [if_neg hcomma, if_neg hcomma]

theorem cleanChars_idem (l : List Char) : cleanChars (cleanChars l) = cleanChars l := by
  simp [cleanChars, List.filter_filter]

theorem normEval_trStyle :
    normalize_price_to_float "1.234,56 TL" = some (1234.56 : ℚ) := by
  rw [show normalize_price_to_float "1.234,56 TL" =
    some (((1234 : ℕ) : ℚ) + ((56 : ℕ) : ℚ) / (10 : ℚ) ^ (2 : ℕ)) from rfl]
  norm_num

theorem normEval_usStyle :
    normalize_price_to_float "1,234.56" = some (1234.56 : ℚ) := by
  rw [show normalize_price_to_float "1,234.56" =
    some (((1234 : ℕ) : ℚ) + ((56 : ℕ) : ℚ) / (10 : ℚ) ^ (2 : ℕ)) from rfl]
  norm_num

theorem normEval_commaDecimal :
    normalize_price_to_float "49,90" = some (49.90 : ℚ) := by
  rw [show normalize_price_to_float "49,90" =
    some (((49 : ℕ) : ℚ) + ((90 : ℕ) : ℚ) / (10 : ℚ) ^ (2 : ℕ)) from rfl]
  norm_num

theorem normEval_dollar :
    normalize_price_to_float "$49.90" = some (49.90 : ℚ) := by
  rw [show normalize_price_to_float "$49.90" =
    some (((49 : ℕ) : ℚ) + ((90 : ℕ) : ℚ) / (10 : ℚ) ^ (2 : ℕ)) from rfl]
  norm_num

/-- C1: on every input, after step 1 stripping, the normalizer
treats the separator with the rightmost last occurrence as the
decimal point when both are present (removing the other and
rewriting a comma decimal to a dot), rewrites a lone comma to a dot,
leaves a lone dot or no separator as-is, and parses the result:
the code equals parse composed with the spec-worded separator
policy. -/
theorem normalize_follows_separator_policy (s : String) :
    normalize_price_to_float s =
      floatOfCleaned (specSeparatorRewrite (pyStrip (cleanChars s.toList))) :=
  normalize_eq_spec s

/-- C3: the four concrete normalizations of the spec. -/
theorem normalize_concrete_formats :
    normalize_price_to_float "1.234,56 TL" = some (1234.56 : ℚ) ∧
    normalize_price_to_float "1,234.56" = some (1234.56 : ℚ) ∧
    normalize_price_to_float "49,90" = some (49.90 : ℚ) ∧
    normalize_price_to_float "$49.90" = some (49.90 : ℚ) :=
  ⟨normEval_trStyle, normEval_usStyle, normEval_commaDecimal, normEval_dollar⟩

/-- C5: when stripping every character that is not a digit, dot or
comma leaves nothing, the normalizer returns `none`; in particular
on the empty string and on a string of letters. -/
theorem normalize_empty_after_strip :
    (∀ s : String, s.toList.filter isPriceChar = [] →
      normalize_price_to_float s = none) ∧
    normalize_price_to_float "" = none ∧
    normalize_price_to_float "abc" = none := by
  refine ⟨fun s h => ?_, by decide, by decide⟩
  rw [normalize_eq_spec, show cleanChars s.toList = ([] : List Char) from h]
  rfl

/-- C5 witness: the letters-only input evaluates as the claim says. -/
theorem normalize_empty_after_strip_witness :
    "abc".toList.filter isPriceChar = ([] : List Char) ∧
      normalize_price_to_float "abc" = none :=
  ⟨by decide, normalize_empty_after_strip.1 "abc" (by decide)⟩

/-- C9: the normalizer is total with `none` as its only failure
signal: every input yields `none` or a number, a parse failure of
the rewritten string yields `none`, and in particular a string with
two separators left over, or a lone dot, yields `none`. -/
theorem normalize_total_never_raises :
    (∀ s : String, normalize_price_to_float s = none ∨
      ∃ q : ℚ, normalize_price_to_float s = some q) ∧
    (∀ s : String,
      floatOfCleaned (specSeparatorRewrite (pyStrip (cleanChars s.toList))) = none →
      normalize_price_to_float s = none) ∧
    normalize_price_to_float "1.2.3" = none ∧
    normalize_price_to_float "." = none := by
  refine ⟨fun s => ?_, fun s h => by rw [normalize_eq_spec, h], by decide, by decide⟩
  cases h : normalize_price_to_float s with
  | none => exact Or.inl rfl
  | some q => exact Or.inr ⟨q, rfl⟩

/-- C9 witness: the ill-formed remainder "1.2.3" fails to parse and
the normalizer returns `none` there. -/
theorem normalize_total_never_raises_witness :
    floatOfCleaned (specSeparatorRewrite (pyStrip (cleanChars "1.2.3".toList))) = none ∧
      normalize_price_to_float "1.2.3" = none :=
  ⟨by decide, normalize_total_never_raises.2.1 "1.2.3" (by decide)⟩

/-- C10: the normalizer depends only on the digit, dot and comma
characters of its input: deleting every other character first does
not change the result. -/
theorem normalize_depends_only_on_price_chars (s : String) :
    normalize_price_to_float s =
      normalize_price_to_float (String.mk (s.toList.filter isPriceChar)) := by
  rw [normalize_eq_spec, normalize_eq_spec]
  have h : cleanChars (String.mk (s.toList.filter isPriceChar)).toList =
      cleanChars s.toList := by
    show cleanChars (cleanChars s.toList) = cleanChars s.toList
    exact cleanChars_idem s.toList
  rw [h]

theorem locate_first_hit (doc : Document) (pre : List String) (r : String)
    (post : List String) (t : String)
    (h1 : ∀ q ∈ pre, doc q = none ∨ doc q = some "")
    (h2 : doc r = some t) (h3 : t ≠ "") :
    locate doc (pre ++ r :: post) = some t := by
  induction pre with
  | nil => simp [locate, h2, h3]
  | cons p ps ih =>
    have hp := h1 p (List.mem_cons_self p ps)
    have hrest : ∀ q ∈ ps, doc q = none ∨ doc q = some "" :=
      fun q hq => h1 q (List.mem_cons_of_mem p hq)
    cases hp with
    | inl h => simpa [locate, h] using ih hrest
    | inr h => simpa [locate, h] using ih hrest

theorem locate_none_iff (doc : Document) (rules : List String) :
    locate doc rules = none ↔ ∀ r ∈ rules, doc r = none ∨ doc r = some "" := by
  induction rules with
  | nil => simp [locate]
  | cons r rs ih =>
    cases hd : doc r with
    | none => simp [locate, hd, ih]
    | some t =>
      by_cases ht : t = ""
      · subst ht; simp [locate, hd, ih]
      · simp [locate, hd, ht, ih]

/-- C2: the locator chain returns the text of the first rule, in
priority order, whose query yields an element with non-empty text,
whatever the later rules would do, and returns `none` exactly when
every rule yields no element or only empty text. -/
theorem locator_chain_first_match (doc : Document) (pre : List String) (r : String)
    (post : List String) (t : String) (rules : List String)
    (h1 : ∀ q ∈ pre, doc q = none ∨ doc q = some "")
    (h2 : doc r = some t) (h3 : t ≠ "") :
    locate doc (pre ++ r :: post) = some t ∧
      (locate doc rules = none ↔ ∀ q ∈ rules, doc q = none ∨ doc q = some "") :=
  ⟨locate_first_hit doc pre r post t h1 h2 h3, locate_none_iff doc rules⟩

/-- C2 witness: a document matching only the third of the six price
rules makes the chain return exactly that text. -/
theorem locator_chain_first_match_witness :
    locate docThirdOnly
        (["#priceblock_ourprice", "#priceblock_dealprice"] ++ "#priceblock_saleprice" ::
          ["span.a-price span.a-offscreen",
           "#corePriceDisplay_desktop_feature_div span.a-price span.a-offscreen",
           "#corePrice_feature_div span.a-price span.a-offscreen"]) = some "1.234,56 TL" ∧
      (locate docThirdOnly priceCandidates = none ↔
        ∀ q ∈ priceCandidates, docThirdOnly q = none ∨ docThirdOnly q = some "") :=
  locator_chain_first_match docThirdOnly
    ["#priceblock_ourprice", "#priceblock_dealprice"] "#priceblock_saleprice"
    ["span.a-price span.a-offscreen",
     "#corePriceDisplay_desktop_feature_div span.a-price span.a-offscreen",
     "#corePrice_feature_div span.a-price span.a-offscreen"]
    "1.234,56 TL" priceCandidates (by decide) (by decide) (by decide)

/-- C4: the extraction fails with `priceNotFound` exactly when the
locator chain finds nothing, fails with `priceUnparseable` exactly
when the located text does not normalize, and a successful result
always carries the located text, its normalized value and its
currency hint. -/
theorem fetch_failure_modes (doc : Document) (url : String) :
    (fetch_amazon_price doc url = Except.error FetchError.priceNotFound ↔
      locate doc priceCandidates = none) ∧
    (fetch_amazon_price doc url = Except.error FetchError.priceUnparseable ↔
      ∃ t, locate doc priceCandidates = some t ∧ normalize_price_to_float t = none) ∧
    (∀ obs : PriceObservation, fetch_amazon_price doc url = Except.ok obs →
      locate doc priceCandidates = some obs.price_text ∧
      normalize_price_to_float obs.price_text = some obs.price ∧
      obs.currency_hint = currency_hint obs.price_text ∧
      obs.url = url) := by
  unfold fetch_amazon_price
  cases hl : locate doc priceCandidates with
  | none => simp
  | some t =>
    cases hn : normalize_price_to_float t with
    | none => simp [hn]
    | some v =>
      refine ⟨by simp [hn], by simp [hn], ?_⟩
      intro obs h
      simp only [hn] at h
      rw [Except.ok.injEq] at h
      subst h
      exact ⟨rfl, hn, rfl, rfl⟩

theorem fetch_eq_of (doc : Document) (url t : String) (v : ℚ)
    (h3 : locate doc priceCandidates = some t)
    (h4 : normalize_price_to_float t = some v) :
    fetch_amazon_price doc url =
      Except.ok ⟨url, titleOf doc, v, t, currency_hint t⟩ := by
  unfold fetch_amazon_price
  simp only [h3, h4]

theorem fetch_dollar_eval :
    fetch_amazon_price docDollarOnly "https://x" =
      Except.ok ⟨"https://x", "", (49.90 : ℚ), "$49.90", "$"⟩ := by
  rw [fetch_eq_of docDollarOnly "https://x" "$49.90" (49.90 : ℚ) rfl normEval_dollar]
  rfl

/-- C4 witness: on a document whose fourth rule carries a dollar
price, the successful observation is fully determined. -/
theorem fetch_failure_modes_witness :
    locate docDollarOnly priceCandidates = some "$49.90" ∧
      normalize_price_to_float "$49.90" = some (49.90 : ℚ) ∧
      "$" = currency_hint "$49.90" ∧
      "https://x" = "https://x" :=
  (fetch_failure_modes docDollarOnly "https://x").2.2
    ⟨"https://x", "", (49.90 : ℚ), "$49.90", "$"⟩ fetch_dollar_eval

theorem mem_pyStrip (l : List Char) (c : Char) (h : c ∈ pyStrip l) : c ∈ l := by
  unfold pyStrip at h
  rw [List.mem_reverse] at h
  have h2 := (List.dropWhile_sublist isPySpace).mem h
  rw [List.mem_reverse] at h2
  exact (List.dropWhile_sublist isPySpace).mem h2

/-- C6: the currency hint keeps only characters of the input that
are not digits, dots, commas or whitespace, and the two concrete
hints of the spec come out as stated; an empty hint is an ordinary
string value. -/
theorem currency_hint_strips :
    (∀ (s : String) (c : Char), c ∈ (currency_hint s).toList →
      c ∈ s.toList ∧ isHintStrip c = false) ∧
    currency_hint "$49.90" = "$" ∧
    currency_hint "1.234,56 TL" = "TL" := by
  refine ⟨fun s c h => ?_, by decide, by decide⟩
  have h1 : c ∈ s.toList.filter (fun c => !isHintStrip c) := mem_pyStrip _ c h
  have h2 := List.mem_filter.mp h1
  exact ⟨h2.1, by simpa using h2.2⟩

/-- C6 witness: the dollar sign survives stripping of "$49.90" and
is not a stripped character. -/
theorem currency_hint_strips_witness :
    '$' ∈ "$49.90".toList ∧ isHintStrip '$' = false :=
  currency_hint_strips.1 "$49.90" '$' (by decide)

/-- C7: when both title selectors yield no element or only empty
text, the extraction still succeeds with an empty title as long as
the price locator and the normalizer succeed. -/
theorem extract_title_optional (doc : Document) (url : String) (t : String) (v : ℚ)
    (h1 : doc "#productTitle" = none ∨ doc "#productTitle" = some "")
    (h2 : doc "h1#title" = none ∨ doc "h1#title" = some "")
    (h3 : locate doc priceCandidates = some t)
    (h4 : normalize_price_to_float t = some v) :
    fetch_amazon_price doc url = Except.ok ⟨url, "", v, t, currency_hint t⟩ := by
  have htitle : titleOf doc = "" := by
    unfold titleOf
    cases h1 with
    | inl h =>
      rw [h]
      cases h2 with
      | inl h2a => rw [h2a]
      | inr h2b => rw [h2b]
    | inr h => rw [h]
  rw [fetch_eq_of doc url t v h3 h4, htitle]

/-- C7 witness: a document with no title element but a locatable,
parseable price yields the empty-title observation. -/
theorem extract_title_optional_witness :
    fetch_amazon_price docCommaOnly "https://x" =
      Except.ok ⟨"https://x", "", (49.90 : ℚ), "49,90", currency_hint "49,90"⟩ :=
  extract_title_optional docCommaOnly "https://x" "49,90" (49.90 : ℚ)
    (Or.inl (by decide)) (Or.inl (by decide)) (by decide) normEval_commaDecimal

theorem runHistory_some (es : List HistoryEntry) (f : List (List String)) :
    runHistory (some f) es = some (f ++ es.map rowOf) := by
  induction es generalizing f with
  | nil => simp [runHistory]
  | cons e es ih => simp [runHistory, append_history_csv, ih]

/-- C8: each call appends exactly one data row, preserving all
previous rows (fields in the order timestamp, url, title, price,
raw price text), and the header row is written exactly on the call
that creates the file and never afterwards: any non-empty run of
calls from a missing file yields the header followed by the data
rows in call order. -/
theorem append_history_one_row_header_once :
    (∀ (file : Option (List (List String))) (e : HistoryEntry),
      append_history_csv file e = file.getD [headerRow] ++ [rowOf e]) ∧
    (∀ (e : HistoryEntry) (es : List HistoryEntry),
      runHistory none (e :: es) = some (headerRow :: (e :: es).map rowOf)) := by
  constructor
  · intro file e
    cases file <;> rfl
  · intro e es
    show runHistory (some [headerRow, rowOf e]) es = _
    rw [runHistory_some]
    simp
